import Mathlib

/-!
Verification development for the `ip-check` IP-reputation aggregation service.

The definitions below are shallow embeddings of the TypeScript sources:
  * `src/core/ipType.ts`      — IP-type normalization and voting
  * `src/core/batchCheck.ts`  — single-IP cache persist step, `prepareExits`,
                                `buildIpSourceInfo`, `processExitsStream`
  * `src/api/keyManager.ts`   — credential pool (`KeyManager`)
  * `src/api/client.ts`       — `fetchApiDataWithKeyManager`
  * `src/routes/manualCheck.ts`, `src/routes/exits.ts` — SSE batch-stream loops
  * `src/middleware/cache.ts`, `src/routes/ai.ts`      — `getOrSetCache` and the
                                AI-analysis `shouldCache` predicate

JavaScript `Record<string, unknown>` values are embedded as association lists
over a small scalar sum type `JVal`; JS truthiness is made explicit.
-/

/-- Scalar values occurring in the merged provider record
(`Record<string, unknown>` restricted to the scalars the code inspects). -/
inductive JVal where
  | str (s : String)
  | num (n : Int)
  | bool (b : Bool)
  | nullv
deriving DecidableEq, Repr

/-- JS truthiness of an optional record field (`none` = the key is absent /
`undefined`). -/
def jsTruthy : Option JVal → Bool
  | some (.str s) => s ≠ ""
  | some (.num n) => n ≠ 0
  | some (.bool b) => b
  | some .nullv => false
  | none => false

/-- `typeof v === 'string'` projection: the string payload when the field holds
a string. -/
def asString : Option JVal → Option String
  | some (.str s) => some s
  | _ => none

/-- Character-list prefix test (`==` on chars), helper for the substring test. -/
def chPrefixEq : List Char → List Char → Bool
  | [], _ => true
  | _ :: _, [] => false
  | a :: as, b :: bs => a == b && chPrefixEq as bs

/-- `pat` occurs somewhere in `s` (character lists). -/
def chOccurs (s pat : List Char) : Bool :=
  if chPrefixEq pat s then true
  else
    match s with
    | [] => false
    | _ :: rest => chOccurs rest pat

/-- JS `s.includes(pat)` on strings. -/
def strIncludes (s pat : String) : Bool :=
  chOccurs s.data pat.data

/-- `s.toLowerCase()` (character-wise, computable in the kernel). -/
def strToLower (s : String) : String :=
  ⟨s.data.map Char.toLower⟩

/-- `s.toUpperCase()` (character-wise, computable in the kernel). -/
def strToUpper (s : String) : String :=
  ⟨s.data.map Char.toUpper⟩

/-- Drop leading whitespace from a character list. -/
def trimLeadingWs : List Char → List Char
  | [] => []
  | c :: rest => if c.isWhitespace then trimLeadingWs rest else c :: rest

/-- `s.trim()`: strip whitespace from both ends. -/
def strTrim (s : String) : String :=
  ⟨(trimLeadingWs (trimLeadingWs s.data).reverse).reverse⟩

/-- `s.startsWith(pat)`. -/
def strStartsWith (s pat : String) : Bool :=
  chPrefixEq pat.data s.data

/-- The subset of merged-record keys that the derivation layer
(`ipType.ts` and `buildIpSourceInfo`) reads. Every field is an optional
scalar, `none` meaning the key is absent from the merged record. -/
structure Merged where
  connection_type : Option JVal := none
  usageType : Option JVal := none
  ip2location_usage : Option JVal := none
  ipinfo_hosting : Option JVal := none
  ip2location_country_code : Option JVal := none
  countryCode : Option JVal := none
  country_code : Option JVal := none
  ipinfo_country : Option JVal := none
  ipguide_asn_country : Option JVal := none
deriving DecidableEq, Repr

/-- Per-category match patterns (`ipType.ts` `IP_TYPE_PATTERNS` entries). -/
structure TypePatterns where
  inclPats : List String
  exactPats : List String
deriving DecidableEq, Repr

/-- `IP_TYPE_PATTERNS` from `src/core/ipType.ts`, in object insertion order. -/
def IP_TYPE_PATTERNS : List (String × TypePatterns) :=
  [ ("residential", ⟨["RESIDENTIAL", "FIXED LINE", "FIXED LINE ISP", "CONSUMER"], ["ISP"]⟩),
    ("mobile", ⟨["MOBILE", "CELLULAR", "WIRELESS"], ["MOB"]⟩),
    ("datacenter", ⟨["DATA CENTER", "HOSTING", "TRANSIT", "DATACENTER", "SERVER", "WEB HOSTING", "CONTENT"], ["DCH"]⟩),
    ("commercial", ⟨["CORPORATE", "COMMERCIAL", "BUSINESS", "ENTERPRISE", "ORGANIZATION"], ["COM"]⟩),
    ("education", ⟨["EDUCATION", "UNIVERSITY", "SCHOOL", "ACADEMIC", "LIBRARY"], ["EDU"]⟩),
    ("government", ⟨["GOVERNMENT", "MILITARY"], ["GOV", "MIL"]⟩),
    ("library", ⟨["LIBRARY"], ["LIB"]⟩) ]

/-- `IP_TYPE_DISPLAY` from `src/core/ipType.ts`. -/
def IP_TYPE_DISPLAY : List (String × String) :=
  [ ("residential", "住宅 IP (Residential)"),
    ("mobile", "移动 IP (Mobile)"),
    ("datacenter", "数据中心 IP (Data Center)"),
    ("commercial", "商业 IP (Commercial)"),
    ("education", "教育 IP (Education)"),
    ("government", "政府/军事 IP (Government)"),
    ("library", "图书馆 IP (Library)"),
    ("unknown", "未知 (Unknown)") ]

/-- `matchesTypePattern` from `src/core/ipType.ts`. -/
def matchesTypePattern (typeUpper : String) (patterns : TypePatterns) : Bool :=
  if patterns.exactPats.contains typeUpper then true
  else patterns.inclPats.any (fun p => strIncludes typeUpper p)

/-- `normalizeIpType` from `src/core/ipType.ts`; the argument is
`string | undefined | null` and a falsy (empty) string yields `"unknown"`. -/
def normalizeIpType (rawType : Option String) : String :=
  match rawType with
  | none => "unknown"
  | some s =>
    if s = "" then "unknown"
    else
      let typeUpper := strTrim (strToUpper s)
      match IP_TYPE_PATTERNS.find? (fun tp => matchesTypePattern typeUpper tp.2) with
      | some tp => if tp.1 = "library" then "education" else tp.1
      | none => "unknown"

/-- `getDisplayType` from `src/core/ipType.ts`. -/
def getDisplayType (ipType : Option String) : String :=
  let unknownDisplay := "未知 (Unknown)"
  match ipType with
  | none => unknownDisplay
  | some s =>
    if s = "" then unknownDisplay
    else
      let typeLower := strToLower s
      let typeUpper := strTrim (strToUpper s)
      match (IP_TYPE_DISPLAY.find? (fun kv => kv.1 = typeLower)).map Prod.snd with
      | some d => d
      | none =>
        match IP_TYPE_PATTERNS.find? (fun tp => matchesTypePattern typeUpper tp.2) with
        | some tp => ((IP_TYPE_DISPLAY.find? (fun kv => kv.1 = tp.1)).map Prod.snd).getD unknownDisplay
        | none => if typeUpper = "UNKNOWN" then unknownDisplay else s ++ " (其他)"

/-- `TypeSourceDetail` from `src/types` (`source`, `rawType`,
`normalizedType`). -/
structure TypeSourceDetail where
  source : String
  rawType : String
  normalizedType : String
deriving DecidableEq, Repr

/-- First push-block of `extractTypeSourceDetails`: the IPQS
`connection_type`, collected only when it is a truthy string that does not
mention `Premium`. -/
def ipqsDetail (merged : Merged) : List TypeSourceDetail :=
  match asString merged.connection_type with
  | some s =>
    if jsTruthy merged.connection_type && !strIncludes s "Premium" then
      [⟨"IPQS", s, normalizeIpType (some s)⟩]
    else []
  | none => []

/-- Second push-block: the AbuseIPDB `usageType`. -/
def abuseDetail (merged : Merged) : List TypeSourceDetail :=
  match asString merged.usageType with
  | some s =>
    if jsTruthy merged.usageType then [⟨"AbuseIPDB", s, normalizeIpType (some s)⟩] else []
  | none => []

/-- Third push-block: the IP2Location `ip2location_usage`. -/
def ip2Detail (merged : Merged) : List TypeSourceDetail :=
  match asString merged.ip2location_usage with
  | some s =>
    if jsTruthy merged.ip2location_usage then [⟨"IP2Location", s, normalizeIpType (some s)⟩] else []
  | none => []

/-- Fourth push-block: the `ipinfo_hosting === true` flag. -/
def hostingDetail (merged : Merged) : List TypeSourceDetail :=
  if merged.ipinfo_hosting = some (.bool true) then
    [⟨"IPInfo Hosting", "Hosting/Data Center", "datacenter"⟩]
  else []

/-- `extractTypeSourceDetails` from `src/core/ipType.ts`: collect the IPQS
`connection_type` (unless it mentions `Premium`), AbuseIPDB `usageType`,
IP2Location `ip2location_usage`, and the `ipinfo_hosting === true` flag,
in that push order. -/
def extractTypeSourceDetails (merged : Merged) : List TypeSourceDetail :=
  ipqsDetail merged ++ abuseDetail merged ++ ip2Detail merged ++ hostingDetail merged

/-- One step of the vote tally: `typeVotes[t] = (typeVotes[t] || 0) + 1` on an
insertion-ordered object. -/
def bumpVote : List (String × Nat) → String → List (String × Nat)
  | [], t => [(t, 1)]
  | (k, n) :: rest, t => if k = t then (k, n + 1) :: rest else (k, n) :: bumpVote rest t

/-- One `forEach` step of the `voteIpType` tally: non-empty, non-`unknown`
normalized types are counted (`if (t && t !== 'unknown')`). -/
def tallyStep (acc : List (String × Nat)) (item : TypeSourceDetail) : List (String × Nat) :=
  if item.normalizedType ≠ "" && item.normalizedType ≠ "unknown" then
    bumpVote acc item.normalizedType
  else acc

/-- The `forEach` tally of `voteIpType`. -/
def tallyVotes (details : List TypeSourceDetail) : List (String × Nat) :=
  details.foldl tallyStep []

/-- The max-vote scan of `voteIpType` (`votes > maxVotes`, first-reached
wins). -/
def voteMaxStep (acc : String × Nat) (tv : String × Nat) : String × Nat :=
  if tv.2 > acc.2 then tv else acc

/-- `voteIpType` from `src/core/ipType.ts`. -/
def voteIpType (typeSourceDetails : List TypeSourceDetail) : String :=
  let typeVotes := tallyVotes typeSourceDetails
  let winner := (typeVotes.foldl voteMaxStep ("unknown", 0)).1
  if winner = "unknown" && typeSourceDetails.length = 0 then "unknown" else winner

/-- The `summary.ipType` object of `buildDetailResult`
(`src/core/batchCheck.ts` lines 456–460, fed by `buildIpCheckResult`):
`value` is the display label, `raw` the normalized vote winner, `sources`
the extracted vote details. -/
structure IpTypeSummary where
  value : String
  raw : String
  sources : List TypeSourceDetail
deriving DecidableEq, Repr

/-- The ipType part of `buildIpCheckResult` / `buildDetailResult`. -/
def buildIpTypeSummary (merged : Merged) : IpTypeSummary :=
  let typeSourceDetails := extractTypeSourceDetails merged
  let ipTypeNormalized := voteIpType typeSourceDetails
  ⟨getDisplayType (some ipTypeNormalized), ipTypeNormalized, typeSourceDetails⟩

/-- `isHostingIp` from `src/core/ipType.ts`. -/
def isHostingIp (merged : Merged) (ipTypeNormalized : String) : Bool :=
  ipTypeNormalized = "datacenter" ||
  merged.ipinfo_hosting = some (.bool true) ||
  normalizeIpType (asString merged.connection_type) = "datacenter" ||
  normalizeIpType (asString merged.usageType) = "datacenter" ||
  normalizeIpType (asString merged.ip2location_usage) = "datacenter"

/-- `IpSourceInfo` from `src/types`. -/
structure IpSourceInfo where
  geoCountry : Option String
  registryCountry : Option String
  isNative : Option Bool
  reason : String
deriving DecidableEq, Repr

/-- JS `a || b || …` over record fields: the first truthy value. -/
def jsOrChainFirst : List (Option JVal) → Option JVal
  | [] => none
  | v :: rest => if jsTruthy v then v else jsOrChainFirst rest

/-- The `geoCountry` computation of `buildIpSourceInfo`
(`src/core/batchCheck.ts`): first truthy among the four country keys,
uppercased, `""` when none. (A truthy non-string would make the original
throw at `.toUpperCase()`; theorems about this function therefore assume
the country fields are strings or falsy.) -/
def geoCountryOf (m : Merged) : String :=
  match jsOrChainFirst
      [m.ip2location_country_code, m.countryCode, m.country_code, m.ipinfo_country] with
  | some (.str s) => strToUpper s
  | _ => ""

/-- The country field holds a string or is falsy (so the original code does
not throw when uppercasing). -/
def strOrFalsy : Option JVal → Bool
  | some (.num n) => n = 0
  | some (.bool b) => !b
  | _ => true

/-- All four geo-country fields are strings or falsy. -/
def GeoFieldsWF (m : Merged) : Bool :=
  strOrFalsy m.ip2location_country_code && strOrFalsy m.countryCode &&
  strOrFalsy m.country_code && strOrFalsy m.ipinfo_country

/-- `getRegisteredCountryFromMerged` from `src/api/client.ts`. -/
def getRegisteredCountryFromMerged (m : Merged) : Option String :=
  match asString m.ipguide_asn_country with
  | some s => if jsTruthy m.ipguide_asn_country then some (strToUpper s) else none
  | none => none

/-- `buildIpSourceInfo` from `src/core/batchCheck.ts` (lines 846–896). -/
def buildIpSourceInfo (m : Merged) : IpSourceInfo :=
  let geoCountry := geoCountryOf m
  match getRegisteredCountryFromMerged m with
  | some registryCountry =>
    if geoCountry ≠ "" then
      if geoCountry = registryCountry then
        ⟨some geoCountry, some registryCountry, some true,
          "注册国家与地理位置一致 (" ++ geoCountry ++ ")"⟩
      else
        ⟨some geoCountry, some registryCountry, some false,
          "注册国家 " ++ registryCountry ++ "，地理位置 " ++ geoCountry⟩
    else
      ⟨none, some registryCountry, none,
        "仅有注册国家 (" ++ registryCountry ++ ")，无地理位置数据"⟩
  | none =>
    if geoCountry ≠ "" then
      ⟨some geoCountry, none, none,
        "仅有地理位置 (" ++ geoCountry ++ ")，无法确定注册国家"⟩
    else
      ⟨none, none, none, "数据不足"⟩

/-! ## Credential pool (`src/api/keyManager.ts`) -/

def DEFAULT_COOLDOWN_MS : Int := 5 * 60 * 1000

def FAILURE_DECAY_MS : Int := 2 * 60 * 1000

/-- Per-key state (`KeyState` in `keyManager.ts`). -/
structure KeyState where
  index : Nat
  isHealthy : Bool
  lastFailure : Option Int
  failureCount : Nat
  successCount : Nat
deriving DecidableEq, Repr

/-- The `KeyManager` state: ordered key list, cooldown, round-robin cursor and
per-key states (the `Map` is embedded as an association list with unique
keys, as built by the constructor). -/
structure KeyManager where
  keys : List String
  cooldownMs : Int
  currentIndex : Nat
  keyStates : List (String × KeyState)
deriving DecidableEq, Repr

/-- `Map.get` on the association list. -/
def lookupState (states : List (String × KeyState)) (key : String) : Option KeyState :=
  (states.find? (fun kv => kv.1 = key)).map Prod.snd

/-- In-place mutation of the state stored for `key` (no-op when absent,
mirroring the `if (state)` guards). -/
def updateState (states : List (String × KeyState)) (key : String)
    (f : KeyState → KeyState) : List (String × KeyState) :=
  states.map (fun kv => if kv.1 = key then (kv.1, f kv.2) else kv)

/-- JS truthiness of the `lastFailure` timestamp (`0` and `null` are falsy). -/
def lfTruthy : Option Int → Bool
  | some t => t ≠ 0
  | none => false

/-- Body of `_cleanupExpiredCooldowns` for one key state. -/
def cleanupKeyState (cooldownMs now : Int) (st : KeyState) : KeyState :=
  if !st.isHealthy && lfTruthy st.lastFailure then
    let lf := st.lastFailure.getD 0
    if now - lf ≥ cooldownMs then { st with isHealthy := true, failureCount := 0 }
    else if now - lf > FAILURE_DECAY_MS && st.failureCount < 2 then
      { st with failureCount := 0 }
    else st
  else st

/-- `_cleanupExpiredCooldowns`: the sweep over all key states. -/
def cleanupExpiredCooldowns (km : KeyManager) (now : Int) : KeyManager :=
  { km with keyStates := km.keyStates.map (fun kv => (kv.1, cleanupKeyState km.cooldownMs now kv.2)) }

/-- The in-loop recovery of `getNextKey` (`isHealthy = true; failureCount = 0`). -/
def restoreKey (st : KeyState) : KeyState :=
  { st with isHealthy := true, failureCount := 0 }

/-- The `while (attempts < this.keys.length)` probe loop of `getNextKey`; the
fuel argument is the number of remaining attempts. -/
def probeLoop (km : KeyManager) (now : Int) : Nat → Option String × KeyManager
  | 0 => (none, km)
  | n + 1 =>
    let key := km.keys.getD km.currentIndex ""
    let km1 := { km with currentIndex := (km.currentIndex + 1) % km.keys.length }
    match lookupState km.keyStates key with
    | none => probeLoop km1 now n
    | some st =>
      if st.isHealthy then (some key, km1)
      else if lfTruthy st.lastFailure && now - st.lastFailure.getD 0 ≥ km.cooldownMs then
        (some key, { km1 with keyStates := updateState km1.keyStates key restoreKey })
      else probeLoop km1 now n

/-- `getNextKey` from `src/api/keyManager.ts` (lines 103–140): an empty pool
yields `null`; a single-key pool returns its key unconditionally; otherwise
sweep cooldowns, then probe up to `N` keys round-robin from the cursor. -/
def getNextKey (km : KeyManager) (now : Int) : Option String × KeyManager :=
  match km.keys with
  | [] => (none, km)
  | [k] => (some k, km)
  | _ =>
    let km1 := cleanupExpiredCooldowns km now
    probeLoop km1 now km1.keys.length

/-- `markSuccess`. -/
def markSuccess (km : KeyManager) (key : String) : KeyManager :=
  { km with keyStates := updateState km.keyStates key (fun st =>
      let st := { st with successCount := st.successCount + 1 }
      if st.failureCount > 0 then { st with failureCount := 0, isHealthy := true } else st) }

/-- Body of `markFailure` for the key's state. -/
def markFailureState (now : Int) (st : KeyState) : KeyState :=
  let st :=
    if lfTruthy st.lastFailure && now - st.lastFailure.getD 0 > FAILURE_DECAY_MS then
      { st with failureCount := 0 }
    else st
  let st := { st with failureCount := st.failureCount + 1, lastFailure := some now }
  if st.failureCount ≥ 2 then { st with isHealthy := false } else st

/-- `markFailure`. -/
def markFailure (km : KeyManager) (key : String) (now : Int) : KeyManager :=
  { km with keyStates := updateState km.keyStates key (markFailureState now) }

/-- The `errorMessages` list of `isKeyRelatedError`
(`src/api/keyManager.ts` lines 218–224). -/
def KEY_ERROR_MESSAGES : List String :=
  ["rate limit", "quota exceeded", "limit exceeded", "request quota",
   "invalid key", "invalid api key", "unauthorized",
   "too many requests", "daily limit", "monthly limit",
   "exceeded", "throttl"]

/-- `isKeyRelatedError(status, response)`; `responseStr` is the `Error`
message, resp. the JSON-serialized response body, which the code lowercases
before the substring scan. -/
def isKeyRelatedError (status : Nat) (responseStr : String) : Bool :=
  if status = 401 || status = 403 || status = 429 then true
  else KEY_ERROR_MESSAGES.any (fun msg => strIncludes (strToLower responseStr) msg)

/-- The substring list exactly as the SPEC words it (claim C6): plain
`quota` where the code has `quota exceeded`. Kept separate so the two
predicates can be compared. -/
def SPEC_KEY_ERROR_MESSAGES : List String :=
  ["rate limit", "quota", "limit exceeded", "request quota",
   "invalid key", "invalid api key", "unauthorized",
   "too many requests", "daily limit", "monthly limit",
   "exceeded", "throttl"]

/-- The spec's version of `isKeyRelatedError` (claim C6), for comparison. -/
def specIsKeyRelatedError (status : Nat) (responseStr : String) : Bool :=
  if status = 401 || status = 403 || status = 429 then true
  else SPEC_KEY_ERROR_MESSAGES.any (fun msg => strIncludes (strToLower responseStr) msg)

/-! ## Keyed provider fetch (`src/api/client.ts`, `fetchApiDataWithKeyManager`) -/

/-- Outcome the network oracle assigns to one attempt: a non-2xx HTTP
response with its body text, a logical failure inside a 200 response
(`checkError` fired; `msg` is `getErrorMessage`, `bodyStr` the serialized
payload), or success. -/
inductive AttemptOutcome where
  | httpErr (status : Nat) (text : String)
  | logicalErr (msg : String) (bodyStr : String)
  | ok
deriving DecidableEq, Repr

/-- Result of the fetch: a success, or a provider-level `status:'error'`
result carrying its message. There is no "thrown" alternative — every path
of the original function returns. -/
inductive FetchResult where
  | success
  | errorRes (msg : String)
deriving DecidableEq, Repr

/-- The error message an attempt outcome produces
(`HTTP <status>: <text>` / `getErrorMessage`). -/
def attemptErrMsg : AttemptOutcome → String
  | .httpErr status text => "HTTP " ++ toString status ++ ": " ++ text
  | .logicalErr msg _ => msg
  | .ok => ""

/-- The retry loop of `fetchApiDataWithKeyManager`; `oracle` gives each
attempt's outcome, `times` the wall clock per attempt, fuel counts the
remaining attempts (`maxRetries`). -/
def fetchLoop (oracle : Nat → AttemptOutcome) (times : Nat → Int)
    (km : KeyManager) (lastError : Option String) (attempt : Nat) :
    Nat → FetchResult × KeyManager
  | 0 => (.errorRes (lastError.getD "All API keys exhausted"), km)
  | fuel + 1 =>
    match getNextKey km (times attempt) with
    | (none, km1) => (.errorRes "No available API key", km1)
    | (some key, km1) =>
      match oracle attempt with
      | .ok => (.success, markSuccess km1 key)
      | .httpErr status text =>
        let msg := "HTTP " ++ toString status ++ ": " ++ text
        if isKeyRelatedError status "{}" || status ≥ 500 then
          fetchLoop oracle times (markFailure km1 key (times attempt)) (some msg) (attempt + 1) fuel
        else if isKeyRelatedError status msg then
          fetchLoop oracle times (markFailure km1 key (times attempt)) (some msg) (attempt + 1) fuel
        else if status ≥ 500 then
          fetchLoop oracle times (markFailure km1 key (times attempt)) (some msg) (attempt + 1) fuel
        else (.errorRes msg, km1)
      | .logicalErr msg body =>
        if isKeyRelatedError 0 body then
          fetchLoop oracle times (markFailure km1 key (times attempt)) (some msg) (attempt + 1) fuel
        else if isKeyRelatedError 0 msg then
          fetchLoop oracle times (markFailure km1 key (times attempt)) (some msg) (attempt + 1) fuel
        else (.errorRes msg, km1)

/-- `fetchApiDataWithKeyManager` (lines 41–167 of `src/api/client.ts`):
empty pool short-circuit, then up to `min(poolSize, 3)` attempts. -/
def fetchApiDataWithKeyManager (km : KeyManager) (oracle : Nat → AttemptOutcome)
    (times : Nat → Int) : FetchResult × KeyManager :=
  if km.keys.length = 0 then (.errorRes "No API keys configured", km)
  else fetchLoop oracle times km none 0 (min km.keys.length 3)

/-- An attempt outcome on which the loop marks the key failed and continues
(rather than returning an error result or succeeding). -/
def retryableOutcome : AttemptOutcome → Bool
  | .httpErr status text =>
    isKeyRelatedError status "{}" || status ≥ 500 ||
    isKeyRelatedError status ("HTTP " ++ toString status ++ ": " ++ text)
  | .logicalErr msg body => isKeyRelatedError 0 body || isKeyRelatedError 0 msg
  | .ok => false

/-! ## Cache persist step (`src/core/batchCheck.ts` lines 244–293) -/

inductive ApiStatus where
  | success
  | error
deriving DecidableEq, Repr

/-- `ApiResult` (the fields the cache bundle stores). -/
structure ApiResultE where
  source : String
  status : ApiStatus
  error : Option String := none
deriving DecidableEq, Repr

/-- `CachedMergedIpData` from `src/core/batchCheck.ts`. -/
structure CachedMergedIpData where
  merged : List (String × JVal)
  successful : List ApiResultE
  errors : List ApiResultE
  asn : Option String
  cachedAt : Int
  isNegativeCache : Option Bool := none
deriving DecidableEq, Repr

def NEGATIVE_CACHE_TTL_SECONDS : Nat := 60

/-- The cache-persist step at the end of `checkSingleIpWithCache`
(lines 247–282): positive entry under the configured TTL when any provider
succeeded, else a negative entry under the 60 s TTL when any provider
errored, else no write. Returns the bundle and TTL written, when any. -/
def cachePersistStep (merged : List (String × JVal)) (successful errors : List ApiResultE)
    (asn : Option String) (ttlSeconds : Nat) (now : Int) :
    Option (CachedMergedIpData × Nat) :=
  if successful.length > 0 then
    some ({ merged := merged, successful := successful, errors := errors,
            asn := asn, cachedAt := now }, ttlSeconds)
  else if errors.length > 0 then
    some ({ merged := [], successful := [], errors := errors,
            asn := asn, cachedAt := now, isNegativeCache := some true },
          NEGATIVE_CACHE_TTL_SECONDS)
  else none

/-! ## `prepareExits` (`src/core/batchCheck.ts` lines 780–814) -/

/-- The slice of `cfData` that `prepareExits` and the batch stream read
(`cfData.ip`, `cfData.network?.asn`); the rest of the edge snapshot is
carried through untouched by the original code. -/
structure CfData where
  ip : String
  asn : Option String
deriving DecidableEq, Repr

/-- `ExitItem` from `src/types`. -/
structure ExitItem where
  exitType : String
  cfData : CfData
deriving DecidableEq, Repr

/-- `EXIT_TYPE_ORDER` from `src/types/api.ts`. -/
def EXIT_TYPE_ORDER : List (String × Nat) :=
  [("ipv4", 1), ("ipv6", 2), ("warp_v4", 3), ("warp_v6", 4), ("he_v6", 5)]

/-- `EXIT_TYPE_ORDER[t] || 999`. -/
def exitOrderOf (t : String) : Nat :=
  match (EXIT_TYPE_ORDER.find? (fun kv => kv.1 = t)).map Prod.snd with
  | some n => n
  | none => 999

/-- Code-point lexicographic three-way comparison on character lists
(the embedding of `String.prototype.localeCompare` for the ASCII exit-type
labels). -/
def lexCmpChars : List Char → List Char → Int
  | [], [] => 0
  | [], _ :: _ => -1
  | _ :: _, [] => 1
  | a :: as, b :: bs =>
    if a.toNat < b.toNat then -1
    else if b.toNat < a.toNat then 1
    else lexCmpChars as bs

/-- `a.localeCompare(b)` as used by the sort comparator. -/
def localeCmp (a b : String) : Int := lexCmpChars a.data b.data

/-- The sort comparator of `prepareExits`: exit-type order first, then
lexicographic `exitType` as a stable same-order tiebreak. -/
def exitCompare (a b : ExitItem) : Int :=
  let orderA := exitOrderOf a.exitType
  let orderB := exitOrderOf b.exitType
  if orderA ≠ orderB then (orderA : Int) - (orderB : Int)
  else localeCmp a.exitType b.exitType

/-- Stable insertion of one element (an element is placed before the first
element it does not compare after, so equal elements keep their original
relative order as with `Array.prototype.sort`, which is stable). -/
def insertSorted (x : ExitItem) : List ExitItem → List ExitItem
  | [] => [x]
  | y :: ys => if exitCompare x y ≤ 0 then x :: y :: ys else y :: insertSorted x ys

/-- Stable sort by `exitCompare` (the `[...exits].sort(...)`). -/
def sortExits : List ExitItem → List ExitItem
  | [] => []
  | x :: xs => insertSorted x (sortExits xs)

/-- `PreparedIpItem` from `src/types`. -/
structure PreparedIpItem where
  ip : String
  exitType : String
  asn : Option String
  cfData : CfData
  order : Nat
deriving DecidableEq, Repr

/-- The item pushed onto `ipList` for a first-seen IP. -/
def mkPreparedItem (e : ExitItem) : PreparedIpItem :=
  ⟨e.cfData.ip, e.exitType, e.cfData.asn, e.cfData, exitOrderOf e.exitType⟩

/-- The dedup loop of `prepareExits`: keep the first occurrence of each IP
after sorting. -/
def buildIpList (seen : List String) : List ExitItem → List PreparedIpItem
  | [] => []
  | e :: rest =>
    if seen.contains e.cfData.ip then buildIpList seen rest
    else mkPreparedItem e :: buildIpList (e.cfData.ip :: seen) rest

structure PrepareExitsResult where
  ipList : List PreparedIpItem
  uniqueIpCount : Nat
deriving DecidableEq, Repr

/-- `prepareExits` from `src/core/batchCheck.ts`. -/
def prepareExits (exits : List ExitItem) : PrepareExitsResult :=
  let ipList := buildIpList [] (sortExits exits)
  ⟨ipList, ipList.length⟩

/-! ## Batch streaming (`processExitsStream` + the SSE loops) -/

/-- SSE events of the batch-stream endpoints, with their `progress`
payload. -/
inductive StreamEvent where
  | result (ip : String) (completed total : Nat)
  | itemError (ip : String) (completed total : Nat)
  | done (completed total : Nat)
deriving DecidableEq, Repr

/-- The Map-based dedup at the top of `processExitsStream`
(`src/core/batchCheck.ts` lines 907–913): first occurrence per `cfData.ip`,
in insertion order. -/
def uniqueExitsByIp (seen : List String) : List ExitItem → List ExitItem
  | [] => []
  | e :: rest =>
    if seen.contains e.cfData.ip then uniqueExitsByIp seen rest
    else e :: uniqueExitsByIp (e.cfData.ip :: seen) rest

/-- The per-yield `result` events of the `/api/check-exits/batch-stream` SSE
loop, with the `completed` counter incremented per yield. Every unique exit
yields exactly one `result` event (an internally failed aggregation still
yields a `result` carrying an `apiErrors` meta entry); results arrive in
completion order, which the embedding fixes to dedup order — the verified
claims depend only on event counts and progress payloads, which completion
order does not affect. -/
def numberResultEvents (total : Nat) (completed : Nat) : List String → List StreamEvent
  | [] => []
  | ip :: rest => .result ip (completed + 1) total :: numberResultEvents total (completed + 1) rest

/-- The full event list of `/api/check-exits/batch-stream`
(route in `src/routes/exits.ts`): one `result` per unique IP, then
`done` with `progress = {completed: exits.length, total: exits.length}`. -/
def exitsBatchStreamEvents (exits : List ExitItem) : List StreamEvent :=
  let uniq := uniqueExitsByIp [] exits
  let total := exits.length
  numberResultEvents total 0 (uniq.map (fun e => e.cfData.ip)) ++ [.done total total]

/-- The sequential loop of `/api/check-ip/batch-stream`
(`src/routes/manualCheck.ts` lines 87–136): one event per input item —
`result` on success, `ITEM_FAILED` `error` when the aggregation throws —
with no deduplication. -/
def checkIpLoop (fails : String → Bool) (total completed : Nat) :
    List String → List StreamEvent
  | [] => []
  | ip :: rest =>
    (if fails ip then StreamEvent.itemError ip (completed + 1) total
     else StreamEvent.result ip (completed + 1) total) ::
    checkIpLoop fails total (completed + 1) rest

/-- The full event list of `/api/check-ip/batch-stream`. -/
def checkIpBatchStreamEvents (ips : List String) (fails : String → Bool) : List StreamEvent :=
  checkIpLoop fails ips.length 0 ips ++ [.done ips.length ips.length]

/-- Counts the `result` events of a stream. -/
def countResultEvents (events : List StreamEvent) : Nat :=
  events.countP (fun e => match e with | .result _ _ _ => true | _ => false)

/-! ## AI-analysis cache (`src/routes/ai.ts` + `src/middleware/cache.ts`) -/

/-- The reasoning field of an LLM analysis value: a string or some
non-string value. -/
inductive ReasoningVal where
  | str (s : String)
  | nonString
deriving DecidableEq, Repr

/-- An LLM analysis value as the `shouldCache` predicate sees it: falsy /
non-object, or an object with an optional `reasoning` field. -/
inductive AiAnalysisValue where
  | nullish
  | obj (reasoning : Option ReasoningVal)
deriving DecidableEq, Repr

/-- The `shouldCache` predicate of the `/api/ai-analysis` route
(`src/routes/ai.ts` lines 34–41). -/
def shouldCacheAi : AiAnalysisValue → Bool
  | .nullish => false
  | .obj none => false
  | .obj (some .nonString) => false
  | .obj (some (.str s)) =>
    if s = "AI 分析暂时不可用" then false
    else if strStartsWith s "AI Analysis Failed" then false
    else true

/-- The predicate as the SPEC words it (claim C8): additionally requires a
NON-EMPTY reasoning string. Kept separate for comparison. -/
def specShouldCacheAi : AiAnalysisValue → Bool
  | .nullish => false
  | .obj none => false
  | .obj (some .nonString) => false
  | .obj (some (.str s)) =>
    if s = "" then false
    else if s = "AI 分析暂时不可用" then false
    else if strStartsWith s "AI Analysis Failed" then false
    else true

/-- Whether `getOrSetCache` (`src/middleware/cache.ts`) performs a KV write
for the AI-analysis route: never without a KV binding or on a cache hit,
otherwise exactly when `shouldCache` accepts the fetched result. -/
def aiCacheWriteHappens (hasKv : Bool) (cached : Option AiAnalysisValue)
    (result : AiAnalysisValue) : Bool :=
  if !hasKv then false
  else
    match cached with
    | some _ => false
    | none => shouldCacheAi result

/-! ## Auxiliary predicates and concrete example inputs -/

/-- A key state on which the `getNextKey` probe loop hands the key out:
already healthy, or its cooldown has expired (the in-loop recovery). -/
def availableAt (cooldownMs now : Int) (st : KeyState) : Bool :=
  st.isHealthy || (lfTruthy st.lastFailure && now - st.lastFailure.getD 0 ≥ cooldownMs)

/-- Pool well-formedness, as the `KeyManager` constructor establishes it:
the cursor is in range and every key has a state in the map. -/
def kmWF (km : KeyManager) : Bool :=
  (km.currentIndex < km.keys.length : Bool) &&
  km.keys.all (fun k => (lookupState km.keyStates k).isSome)

/-- The event is a `result` SSE event. -/
def isResultEvent : StreamEvent → Bool
  | .result _ _ _ => true
  | _ => false

/-- The event is an `ITEM_FAILED` `error` SSE event. -/
def isItemErrorEvent : StreamEvent → Bool
  | .itemError _ _ _ => true
  | _ => false

/-- Counts the `result` events of a stream (replaces the inline version). -/
def countItemErrorEvents (events : List StreamEvent) : Nat :=
  events.countP isItemErrorEvent

/-- A merged record whose only type vote is an unrecognized AbuseIPDB
`usageType` string. -/
def c3Example : Merged := { usageType := some (.str "XYZ") }

/-- A merged record with agreeing geolocation and registry countries. -/
def c7Example : Merged :=
  { ip2location_country_code := some (.str "us"), ipguide_asn_country := some (.str "US") }

/-- A merged record whose IPQS `connection_type` mentions `Premium`. -/
def c10Example : Merged :=
  { connection_type := some (.str "Premium required"), usageType := some (.str "hosting") }

/-- A fresh single-key pool. -/
def c2Pool : KeyManager :=
  { keys := ["K1"], cooldownMs := DEFAULT_COOLDOWN_MS, currentIndex := 0,
    keyStates := [("K1", ⟨0, true, none, 0, 0⟩)] }

/-- The single-key pool after two failures (the second at time 2000), so its
only key is unhealthy and still inside the cooldown window. -/
def c2PoolFailed : KeyManager :=
  markFailure (markFailure c2Pool "K1" 1000) "K1" 2000

/-- A three-key pool whose first key is unhealthy (recent failure) and whose
other keys are healthy. -/
def c2Pool3 : KeyManager :=
  { keys := ["A", "B", "C"], cooldownMs := DEFAULT_COOLDOWN_MS, currentIndex := 0,
    keyStates := [("A", ⟨0, false, some 900, 2, 0⟩), ("B", ⟨1, true, none, 0, 5⟩),
                  ("C", ⟨2, true, none, 0, 0⟩)] }

/-- A fresh single-key pool for the fetch-loop run. -/
def c4Pool : KeyManager :=
  { keys := ["K1"], cooldownMs := DEFAULT_COOLDOWN_MS, currentIndex := 0,
    keyStates := [("K1", ⟨0, true, none, 0, 0⟩)] }

/-- A network oracle on which every attempt gets HTTP 429. -/
def c4Oracle : Nat → AttemptOutcome := fun _ => .httpErr 429 "Too Many Requests"

/-- A constant wall clock for the fetch-loop run. -/
def c4Times : Nat → Int := fun _ => 1000

/-- The spec's boundary-scenario batch input: four exits over three unique
IPs, with `8.8.8.8` duplicated. -/
def c1Exits : List ExitItem :=
  [⟨"ipv4", ⟨"8.8.8.8", none⟩⟩, ⟨"ipv6", ⟨"1.1.1.1", none⟩⟩,
   ⟨"warp_v4", ⟨"8.8.8.8", none⟩⟩, ⟨"he_v6", ⟨"9.9.9.9", none⟩⟩]

/-- The same four inputs for the check-ip batch stream. -/
def c1Ips : List String := ["8.8.8.8", "1.1.1.1", "8.8.8.8", "9.9.9.9"]

/-! # Theorems -/

theorem asString_none : asString none = none := rfl

theorem asString_str (s : String) : asString (some (.str s)) = some s := rfl

theorem jsTruthy_str (s : String) : jsTruthy (some (.str s)) = decide (s ≠ "") := rfl

theorem ipqsDetail_source (m : Merged) (d : TypeSourceDetail)
    (hd : d ∈ ipqsDetail m) : d.source = "IPQS" := by
  cases h : asString m.connection_type with
  | none => simp [ipqsDetail, h] at hd
  | some s =>
    simp only [ipqsDetail, h] at hd
    split_ifs at hd with hc
    · simp at hd; subst hd; rfl
    · simp at hd

theorem abuseDetail_source (m : Merged) (d : TypeSourceDetail)
    (hd : d ∈ abuseDetail m) : d.source = "AbuseIPDB" := by
  cases h : asString m.usageType with
  | none => simp [abuseDetail, h] at hd
  | some s =>
    simp only [abuseDetail, h] at hd
    split_ifs at hd with hc
    · simp at hd; subst hd; rfl
    · simp at hd

theorem ip2Detail_source (m : Merged) (d : TypeSourceDetail)
    (hd : d ∈ ip2Detail m) : d.source = "IP2Location" := by
  cases h : asString m.ip2location_usage with
  | none => simp [ip2Detail, h] at hd
  | some s =>
    simp only [ip2Detail, h] at hd
    split_ifs at hd with hc
    · simp at hd; subst hd; rfl
    · simp at hd

theorem hostingDetail_source (m : Merged) (d : TypeSourceDetail)
    (hd : d ∈ hostingDetail m) : d.source = "IPInfo Hosting" := by
  by_cases hc : m.ipinfo_hosting = some (.bool true)
  · simp only [hostingDetail, if_pos hc] at hd
    simp at hd; subst hd; rfl
  · simp [hostingDetail, hc] at hd

/-- C10: in a merged record whose `connection_type` contains `Premium`, the
IPQS entry is dropped from the type-vote source list entirely — the list is
the one computed as if `connection_type` were absent — and no collected
entry carries the IPQS source, while the AbuseIPDB, IP2Location and
ipinfo-hosting entries are still collected. -/
theorem claim_C10_premium_excluded (m : Merged) (s : String)
    (hct : m.connection_type = some (.str s))
    (hprem : strIncludes s "Premium" = true) :
    extractTypeSourceDetails m = extractTypeSourceDetails { m with connection_type := none } ∧
    ∀ d ∈ extractTypeSourceDetails m, d.source ≠ "IPQS" := by
  have h1 : ipqsDetail m = [] := by
    simp [ipqsDetail, hct, asString, hprem]
  have h2 : ipqsDetail { m with connection_type := none } = [] := by
    simp [ipqsDetail, asString]
  have heq : extractTypeSourceDetails m = extractTypeSourceDetails { m with connection_type := none } := by
    simp [extractTypeSourceDetails, h1, h2, abuseDetail, ip2Detail, hostingDetail]
  refine ⟨heq, ?_⟩
  intro d hd
  unfold extractTypeSourceDetails at hd
  rw [h1] at hd
  simp only [List.nil_append, List.mem_append] at hd
  rcases hd with (hd | hd) | hd
  · rw [abuseDetail_source m d hd]; decide
  · rw [ip2Detail_source m d hd]; decide
  · rw [hostingDetail_source m d hd]; decide

theorem claim_C10_witness :
    extractTypeSourceDetails c10Example =
      extractTypeSourceDetails { c10Example with connection_type := none } :=
  (claim_C10_premium_excluded c10Example "Premium required" rfl (by decide)).1

/-- C5: after a cache miss, the persist step writes the merged bundle under
the configured positive TTL when at least one provider succeeded; writes a
negative entry (`isNegativeCache = true`, empty merged map) under the 60 s
negative TTL when there were errors but no successes; and writes nothing
when there were neither. -/
theorem claim_C5_cache_persist (merged : List (String × JVal))
    (successful errors : List ApiResultE) (asn : Option String)
    (ttlSeconds : Nat) (now : Int) :
    (successful ≠ [] →
      cachePersistStep merged successful errors asn ttlSeconds now =
        some ({ merged := merged, successful := successful, errors := errors,
                asn := asn, cachedAt := now }, ttlSeconds)) ∧
    (successful = [] → errors ≠ [] →
      cachePersistStep merged successful errors asn ttlSeconds now =
        some ({ merged := [], successful := [], errors := errors, asn := asn,
                cachedAt := now, isNegativeCache := some true },
              NEGATIVE_CACHE_TTL_SECONDS) ∧
      NEGATIVE_CACHE_TTL_SECONDS = 60) ∧
    (successful = [] → errors = [] →
      cachePersistStep merged successful errors asn ttlSeconds now = none) := by
  refine ⟨?_, ?_, ?_⟩
  · intro h
    have hl : 0 < successful.length := List.length_pos.2 h
    simp [cachePersistStep, hl]
  · intro hs he
    subst hs
    have hl : 0 < errors.length := List.length_pos.2 he
    exact ⟨by simp [cachePersistStep, hl], rfl⟩
  · intro hs he
    subst hs; subst he
    simp [cachePersistStep]

theorem claim_C5_witness :
    cachePersistStep [] [] [⟨"ipqs", ApiStatus.error, some "boom"⟩] none 900 0 =
      some ({ merged := [], successful := [],
              errors := [⟨"ipqs", ApiStatus.error, some "boom"⟩], asn := none,
              cachedAt := 0, isNegativeCache := some true },
            NEGATIVE_CACHE_TTL_SECONDS) ∧
    NEGATIVE_CACHE_TTL_SECONDS = 60 :=
  (claim_C5_cache_persist [] [] [⟨"ipqs", ApiStatus.error, some "boom"⟩] none 900 0).2.1
    rfl (by decide)

/-- C6 fails as stated: the code's substring list has `quota exceeded`, not
plain `quota`. The body `"quota reached"` contains `quota` — so the claim
says `isKeyRelatedError` returns true on HTTP 400 — but the code returns
false. -/
theorem claim_C6_counterexample :
    isKeyRelatedError 400 "quota reached" = false ∧
    specIsKeyRelatedError 400 "quota reached" = true := by decide

/-- C6 (amended): `isKeyRelatedError` returns true iff the status is one of
401/403/429 or the lowercased body/message contains one of the code's
substrings — the claim's list with `quota exceeded` in place of `quota`. -/
theorem claim_C6_amended (status : Nat) (body : String) :
    isKeyRelatedError status body = true ↔
      ((status = 401 ∨ status = 403 ∨ status = 429) ∨
        ∃ msg ∈ KEY_ERROR_MESSAGES, strIncludes (strToLower body) msg = true) := by
  unfold isKeyRelatedError
  split_ifs with h
  · simp only [true_iff]
    exact Or.inl (by simpa [or_assoc] using h)
  · have h' : ¬(status = 401 ∨ status = 403 ∨ status = 429) := by
      simpa [not_or, and_assoc] using h
    simp [List.any_eq_true, h']

/-- C8 fails as stated: the `shouldCache` predicate does not require a
non-empty reasoning string, so a result with `reasoning: ""` is written to
the cache although the claim says it must not be. -/
theorem claim_C8_counterexample :
    aiCacheWriteHappens true none (.obj (some (.str ""))) = true ∧
    shouldCacheAi (.obj (some (.str ""))) = true ∧
    specShouldCacheAi (.obj (some (.str ""))) = false := by decide

/-- C8 (amended): on a cache miss with a KV binding, the AI-analysis result
is written iff its reasoning field is a string (empty allowed) that is not
the canonical "temporarily unavailable" string and does not start with
`AI Analysis Failed`; in particular a failed LLM call never creates a cache
entry. -/
theorem claim_C8_amended (hasKv : Bool) (cached : Option AiAnalysisValue)
    (v : AiAnalysisValue) :
    (aiCacheWriteHappens hasKv cached v = true ↔
      (hasKv = true ∧ cached = none ∧
        ∃ s, v = .obj (some (.str s)) ∧ s ≠ "AI 分析暂时不可用" ∧
          strStartsWith s "AI Analysis Failed" = false)) ∧
    (∀ s, v = .obj (some (.str s)) → strStartsWith s "AI Analysis Failed" = true →
      aiCacheWriteHappens hasKv cached v = false) := by
  constructor
  · cases hasKv with
    | false => simp [aiCacheWriteHappens]
    | true =>
      cases cached with
      | some c => simp [aiCacheWriteHappens]
      | none =>
        cases v with
        | nullish => simp [aiCacheWriteHappens, shouldCacheAi]
        | obj r =>
          cases r with
          | none => simp [aiCacheWriteHappens, shouldCacheAi]
          | some rv =>
            cases rv with
            | nonString => simp [aiCacheWriteHappens, shouldCacheAi]
            | str s =>
              simp only [aiCacheWriteHappens, shouldCacheAi, Bool.not_true,
                Bool.false_eq_true, if_false]
              split_ifs with h1 h2 <;> simp_all
  · intro s hv hsw
    subst hv
    cases hasKv with
    | false => simp [aiCacheWriteHappens]
    | true =>
      cases cached with
      | some c => simp [aiCacheWriteHappens]
      | none =>
        simp only [aiCacheWriteHappens, shouldCacheAi]
        split_ifs <;> simp_all

theorem claim_C8_witness :
    aiCacheWriteHappens true none (.obj (some (.str "AI Analysis Failed: 500"))) = false :=
  (claim_C8_amended true none (.obj (some (.str "AI Analysis Failed: 500")))).2
    "AI Analysis Failed: 500" rfl (by decide)

theorem normalizeIpType_ne_empty (o : Option String) : normalizeIpType o ≠ "" := by
  rcases o with _ | s
  · simp [normalizeIpType]
  · simp only [normalizeIpType]
    split_ifs with h
    · simp
    · rcases hf : IP_TYPE_PATTERNS.find?
          (fun tp => matchesTypePattern (strTrim (strToUpper s)) tp.2) with _ | tp
      · simp [hf]
      · have hmem := List.mem_of_find?_eq_some hf
        simp only [hf]
        split_ifs with hl
        · simp
        · simp only [IP_TYPE_PATTERNS, List.mem_cons, List.not_mem_nil, or_false] at hmem
          rcases hmem with h' | h' | h' | h' | h' | h' | h' <;> (subst h'; simp)

theorem mem_ipqsDetail_norm (m : Merged) (d : TypeSourceDetail)
    (hd : d ∈ ipqsDetail m) : ∃ s, d.normalizedType = normalizeIpType (some s) := by
  cases h : asString m.connection_type with
  | none => simp [ipqsDetail, h] at hd
  | some s =>
    simp only [ipqsDetail, h] at hd
    split_ifs at hd with hc
    · simp at hd; subst hd; exact ⟨s, rfl⟩
    · simp at hd

theorem mem_abuseDetail_norm (m : Merged) (d : TypeSourceDetail)
    (hd : d ∈ abuseDetail m) : ∃ s, d.normalizedType = normalizeIpType (some s) := by
  cases h : asString m.usageType with
  | none => simp [abuseDetail, h] at hd
  | some s =>
    simp only [abuseDetail, h] at hd
    split_ifs at hd with hc
    · simp at hd; subst hd; exact ⟨s, rfl⟩
    · simp at hd

theorem mem_ip2Detail_norm (m : Merged) (d : TypeSourceDetail)
    (hd : d ∈ ip2Detail m) : ∃ s, d.normalizedType = normalizeIpType (some s) := by
  cases h : asString m.ip2location_usage with
  | none => simp [ip2Detail, h] at hd
  | some s =>
    simp only [ip2Detail, h] at hd
    split_ifs at hd with hc
    · simp at hd; subst hd; exact ⟨s, rfl⟩
    · simp at hd

theorem hostingDetail_norm (m : Merged) (d : TypeSourceDetail)
    (hd : d ∈ hostingDetail m) : d.normalizedType = "datacenter" := by
  by_cases hc : m.ipinfo_hosting = some (.bool true)
  · simp [hostingDetail, hc] at hd
    subst hd; rfl
  · simp [hostingDetail, hc] at hd

theorem extract_norm_ne_empty (m : Merged) :
    ∀ d ∈ extractTypeSourceDetails m, d.normalizedType ≠ "" := by
  intro d hd
  unfold extractTypeSourceDetails at hd
  rcases List.mem_append.1 hd with hd | hd
  · rcases List.mem_append.1 hd with hd | hd
    · rcases List.mem_append.1 hd with hd | hd
      · obtain ⟨s, hs⟩ := mem_ipqsDetail_norm m d hd
        rw [hs]; exact normalizeIpType_ne_empty _
      · obtain ⟨s, hs⟩ := mem_abuseDetail_norm m d hd
        rw [hs]; exact normalizeIpType_ne_empty _
    · obtain ⟨s, hs⟩ := mem_ip2Detail_norm m d hd
      rw [hs]; exact normalizeIpType_ne_empty _
  · rw [hostingDetail_norm m d hd]; decide

theorem bumpVote_ne_nil (acc : List (String × Nat)) (t : String) :
    bumpVote acc t ≠ [] := by
  cases acc with
  | nil => simp [bumpVote]
  | cons kv rest =>
    obtain ⟨k, n⟩ := kv
    simp only [bumpVote]
    split_ifs <;> simp

theorem bumpVote_prop (t : String) (ht1 : t ≠ "") (ht2 : t ≠ "unknown") :
    ∀ acc, (∀ e ∈ acc, e.1 ≠ "" ∧ e.1 ≠ "unknown" ∧ 1 ≤ e.2) →
    ∀ e ∈ bumpVote acc t, e.1 ≠ "" ∧ e.1 ≠ "unknown" ∧ 1 ≤ e.2 := by
  intro acc
  induction acc with
  | nil =>
    intro _ e he
    simp [bumpVote] at he
    subst he
    exact ⟨ht1, ht2, le_refl 1⟩
  | cons kv rest ih =>
    obtain ⟨k, n⟩ := kv
    intro hacc e he
    simp only [bumpVote] at he
    split_ifs at he with hk
    · rcases List.mem_cons.1 he with he | he
      · subst he
        have hh := hacc (k, n) (List.mem_cons_self _ _)
        exact ⟨hh.1, hh.2.1, Nat.le_succ_of_le hh.2.2⟩
      · exact hacc e (List.mem_cons_of_mem _ he)
    · rcases List.mem_cons.1 he with he | he
      · subst he
        exact hacc (k, n) (List.mem_cons_self _ _)
      · exact ih (fun x hx => hacc x (List.mem_cons_of_mem _ hx)) e he

theorem tallyFold_prop (details : List TypeSourceDetail) :
    ∀ acc, (∀ e ∈ acc, e.1 ≠ "" ∧ e.1 ≠ "unknown" ∧ 1 ≤ e.2) →
    ∀ e ∈ details.foldl tallyStep acc, e.1 ≠ "" ∧ e.1 ≠ "unknown" ∧ 1 ≤ e.2 := by
  induction details with
  | nil =>
    intro acc hacc e he
    simpa using hacc e (by simpa using he)
  | cons d rest ih =>
    intro acc hacc e he
    rw [List.foldl_cons] at he
    refine ih (tallyStep acc d) ?_ e he
    intro x hx
    unfold tallyStep at hx
    split_ifs at hx with hc
    · simp only [Bool.and_eq_true, decide_eq_true_eq] at hc
      exact bumpVote_prop d.normalizedType hc.1 hc.2 acc hacc x hx
    · exact hacc x hx

theorem tallyFold_ne_nil (details : List TypeSourceDetail) :
    ∀ acc, acc ≠ [] → details.foldl tallyStep acc ≠ [] := by
  induction details with
  | nil => intro acc h; simpa using h
  | cons d rest ih =>
    intro acc h
    rw [List.foldl_cons]
    refine ih _ ?_
    unfold tallyStep
    split_ifs with hc
    · exact bumpVote_ne_nil acc d.normalizedType
    · exact h

theorem tallyFold_ne_nil_of_mem (details : List TypeSourceDetail) :
    ∀ acc (d : TypeSourceDetail), d ∈ details →
    d.normalizedType ≠ "" → d.normalizedType ≠ "unknown" →
    details.foldl tallyStep acc ≠ [] := by
  induction details with
  | nil => intro acc d hd _ _; simp at hd
  | cons x rest ih =>
    intro acc d hd h1 h2
    rw [List.foldl_cons]
    rcases List.mem_cons.1 hd with hd | hd
    · subst hd
      refine tallyFold_ne_nil rest _ ?_
      unfold tallyStep
      split_ifs with hc
      · exact bumpVote_ne_nil _ _
      · simp [h1, h2] at hc
    · exact ih (tallyStep acc x) d hd h1 h2

theorem tallyFold_nil_of_all (details : List TypeSourceDetail) :
    ∀ acc, (∀ d ∈ details, d.normalizedType = "" ∨ d.normalizedType = "unknown") →
    details.foldl tallyStep acc = acc := by
  induction details with
  | nil => intro acc _; rfl
  | cons x rest ih =>
    intro acc h
    rw [List.foldl_cons]
    have hx := h x (List.mem_cons_self _ _)
    have hstep : tallyStep acc x = acc := by
      unfold tallyStep
      split_ifs with hc
      · exfalso
        rcases hx with hx | hx <;> simp [hx] at hc
      · rfl
    rw [hstep]
    exact ih acc (fun d hd => h d (List.mem_cons_of_mem _ hd))

theorem voteMax_fold_eq_or_mem (votes : List (String × Nat)) :
    ∀ acc, votes.foldl voteMaxStep acc = acc ∨
      (votes.foldl voteMaxStep acc).1 ∈ votes.map Prod.fst := by
  induction votes with
  | nil => intro acc; left; rfl
  | cons v vs ih =>
    intro acc
    rw [List.foldl_cons]
    rcases ih (voteMaxStep acc v) with h | h
    · rw [h]
      unfold voteMaxStep
      split_ifs with hv
      · right; simp
      · left; rfl
    · right
      rw [List.map_cons]
      exact List.mem_cons_of_mem _ h

theorem voteMax_fold_ge_acc (votes : List (String × Nat)) :
    ∀ acc : String × Nat, acc.2 ≤ (votes.foldl voteMaxStep acc).2 := by
  induction votes with
  | nil => intro acc; exact le_refl _
  | cons v vs ih =>
    intro acc
    rw [List.foldl_cons]
    refine le_trans ?_ (ih (voteMaxStep acc v))
    unfold voteMaxStep
    split_ifs with hv
    · exact Nat.le_of_lt hv
    · exact le_refl _

theorem voteMax_fold_ge_mem (votes : List (String × Nat)) :
    ∀ (acc : String × Nat) (e : String × Nat), e ∈ votes →
      e.2 ≤ (votes.foldl voteMaxStep acc).2 := by
  induction votes with
  | nil => intro acc e he; simp at he
  | cons v vs ih =>
    intro acc e he
    rw [List.foldl_cons]
    rcases List.mem_cons.1 he with he | he
    · subst he
      refine le_trans ?_ (voteMax_fold_ge_acc vs (voteMaxStep acc e))
      unfold voteMaxStep
      split_ifs with hv
      · exact le_refl _
      · exact Nat.le_of_not_lt hv
    · exact ih (voteMaxStep acc v) e he

theorem voteIpType_eq_winner (details : List TypeSourceDetail) :
    voteIpType details = ((tallyVotes details).foldl voteMaxStep ("unknown", 0)).1 := by
  simp only [voteIpType]
  split_ifs with h
  · simp only [Bool.and_eq_true, decide_eq_true_eq] at h
    exact h.1.symm
  · rfl

theorem voteIpType_unknown_iff (details : List TypeSourceDetail)
    (hne : ∀ d ∈ details, d.normalizedType ≠ "") :
    (voteIpType details = "unknown" ↔ ∀ d ∈ details, d.normalizedType = "unknown") := by
  rw [voteIpType_eq_winner]
  constructor
  · intro hw d hd
    by_contra hdu
    have hnil : tallyVotes details ≠ [] :=
      tallyFold_ne_nil_of_mem details [] d hd (hne d hd) hdu
    have hprop := tallyFold_prop details [] (by intro e he; simp at he)
    rcases voteMax_fold_eq_or_mem (tallyVotes details) ("unknown", 0) with h | h
    · rcases hx : tallyVotes details with _ | ⟨e, rest⟩
      · exact hnil hx
      · have he : e ∈ tallyVotes details := by
          rw [hx]; exact List.mem_cons_self _ _
        have h1 : 1 ≤ e.2 := (hprop e he).2.2
        have h2 : e.2 ≤ ((tallyVotes details).foldl voteMaxStep ("unknown", 0)).2 :=
          voteMax_fold_ge_mem _ _ e he
        rw [h] at h2
        simp at h2
        omega
    · rw [hw] at h
      rcases List.mem_map.1 h with ⟨e, he, hfst⟩
      exact (hprop e he).2.1 hfst
  · intro hall
    have hn : tallyVotes details = [] :=
      tallyFold_nil_of_all details [] (fun d hd => Or.inr (hall d hd))
    rw [hn]
    rfl

/-- C3 fails as stated: for a merged record whose only contribution is an
unrecognized AbuseIPDB `usageType` string, no provider contributed a
non-`unknown` type, yet `summary.ipType.sources` is non-empty (it keeps the
unknown-normalized vote detail) and `summary.ipType.value` is the display
label `未知 (Unknown)`, not the string `"unknown"` (which lives in `raw`). -/
theorem claim_C3_counterexample :
    (buildIpTypeSummary c3Example).raw = "unknown" ∧
    (buildIpTypeSummary c3Example).sources ≠ [] ∧
    (buildIpTypeSummary c3Example).value ≠ "unknown" := by decide

/-- C3 (amended): `summary.ipType.raw = "unknown"` iff no provider
contributed a type that normalizes to something other than `unknown`
(`sources` lists every contributed detail, so the condition is that all its
entries normalize to `unknown`); in that case `value` is the display label
`未知 (Unknown)`. -/
theorem claim_C3_amended (m : Merged) :
    ((buildIpTypeSummary m).raw = "unknown" ↔
      ∀ d ∈ (buildIpTypeSummary m).sources, d.normalizedType = "unknown") ∧
    ((buildIpTypeSummary m).raw = "unknown" →
      (buildIpTypeSummary m).value = "未知 (Unknown)") := by
  constructor
  · exact voteIpType_unknown_iff (extractTypeSourceDetails m) (extract_norm_ne_empty m)
  · intro h
    have hraw : (buildIpTypeSummary m).raw = voteIpType (extractTypeSourceDetails m) := rfl
    have hv : (buildIpTypeSummary m).value =
        getDisplayType (some (voteIpType (extractTypeSourceDetails m))) := rfl
    rw [hraw] at h
    rw [hv, h]
    decide

/-- C7: the native/broadcast trichotomy of `buildIpSourceInfo`. Under the
well-formedness assumption that the four geo-country fields hold strings or
falsy values (which is what every provider transform produces):
`isNative = true` forces both countries present and equal; `isNative =
false` forces both present, different, with a reason naming both; `isNative
= null` forces at least one country absent. -/
theorem claim_C7_trichotomy (m : Merged) (_hwf : GeoFieldsWF m = true) :
    ((buildIpSourceInfo m).isNative = some true →
      ∃ c, (buildIpSourceInfo m).geoCountry = some c ∧
        (buildIpSourceInfo m).registryCountry = some c) ∧
    ((buildIpSourceInfo m).isNative = some false →
      ∃ g r, g ≠ r ∧ (buildIpSourceInfo m).geoCountry = some g ∧
        (buildIpSourceInfo m).registryCountry = some r ∧
        (buildIpSourceInfo m).reason = "注册国家 " ++ r ++ "，地理位置 " ++ g) ∧
    ((buildIpSourceInfo m).isNative = none →
      (buildIpSourceInfo m).geoCountry = none ∨
        (buildIpSourceInfo m).registryCountry = none) := by
  rcases hreg : getRegisteredCountryFromMerged m with _ | r
  · by_cases hg : geoCountryOf m = ""
    · simp [buildIpSourceInfo, hreg, hg]
    · simp [buildIpSourceInfo, hreg, hg]
  · by_cases hg : geoCountryOf m = ""
    · simp [buildIpSourceInfo, hreg, hg]
    · by_cases heq : geoCountryOf m = r
      · have hr : ¬(r = "") := by rw [← heq]; exact hg
        simp [buildIpSourceInfo, hreg, hg, heq, hr]
      · simp only [buildIpSourceInfo, hreg, hg, heq]
        refine ⟨?_, ?_, ?_⟩
        · intro hfalse
          simp [hg, heq] at hfalse
        · intro _
          exact ⟨geoCountryOf m, r, heq, by simp [hg, heq], by simp [hg, heq],
            by simp [hg, heq]⟩
        · intro hnone
          simp [hg, heq] at hnone

theorem claim_C7_witness :
    (buildIpSourceInfo c7Example).isNative = some true ∧
    ∃ c, (buildIpSourceInfo c7Example).geoCountry = some c ∧
      (buildIpSourceInfo c7Example).registryCountry = some c :=
  ⟨by decide, (claim_C7_trichotomy c7Example (by decide)).1 (by decide)⟩

theorem countResultEvents_number (ips : List String) :
    ∀ total completed, countResultEvents (numberResultEvents total completed ips) = ips.length := by
  induction ips with
  | nil => intro t c; rfl
  | cons ip rest ih =>
    intro t c
    simp only [numberResultEvents, countResultEvents, List.countP_cons, isResultEvent]
    rw [← countResultEvents]
    rw [ih t (c + 1)]
    simp

theorem getLast?_append_singleton (l : List StreamEvent) (a : StreamEvent) :
    (l ++ [a]).getLast? = some a := by
  induction l with
  | nil => rfl
  | cons x xs ih =>
    rw [List.cons_append]
    rcases hxs : xs ++ [a] with _ | ⟨y, ys⟩
    · exact absurd hxs (by simp)
    · rw [List.getLast?_cons_cons, ← hxs, ih]

theorem checkIpLoop_count (fails : String → Bool) (ips : List String) :
    ∀ total completed,
      countResultEvents (checkIpLoop fails total completed ips) +
        countItemErrorEvents (checkIpLoop fails total completed ips) = ips.length := by
  induction ips with
  | nil => intro t c; rfl
  | cons ip rest ih =>
    intro t c
    have hih := ih t (c + 1)
    unfold countResultEvents countItemErrorEvents at hih ⊢
    simp only [checkIpLoop, List.length_cons]
    by_cases hf : fails ip <;>
      simp [hf, List.countP_cons, isResultEvent, isItemErrorEvent] <;>
      omega

/-- C1 fails as stated. For the spec's own boundary input — four items over
three unique IPs — the exits batch stream does emit exactly 3 `result`
events, but its final `done` event reports `progress = {completed: 4,
total: 4}` (the raw input length), not `{3, 3}`; and the check-ip batch
stream does not deduplicate at all, emitting 4 `result` events. -/
theorem claim_C1_counterexample :
    countResultEvents (exitsBatchStreamEvents c1Exits) = 3 ∧
    (uniqueExitsByIp [] c1Exits).length = 3 ∧
    (exitsBatchStreamEvents c1Exits).getLast? = some (.done 4 4) ∧
    some (StreamEvent.done 4 4) ≠ some (StreamEvent.done 3 3) ∧
    countResultEvents (checkIpBatchStreamEvents c1Ips (fun _ => false)) = 4 := by decide

/-- C1 (amended): the exits batch stream deduplicates by IP (first
occurrence wins) and emits exactly one `result` event per unique IP, but
its `done` event carries `completed = total = exits.length`, the raw input
count; the check-ip batch stream performs no deduplication — it emits one
event (`result`, or `ITEM_FAILED` `error` when the aggregation throws) per
input item and finishes with `done` carrying `completed = total =
ips.length`. -/
theorem claim_C1_amended (exits : List ExitItem) (ips : List String)
    (fails : String → Bool) :
    countResultEvents (exitsBatchStreamEvents exits) = (uniqueExitsByIp [] exits).length ∧
    (exitsBatchStreamEvents exits).getLast? =
      some (.done exits.length exits.length) ∧
    countResultEvents (checkIpBatchStreamEvents ips fails) +
      countItemErrorEvents (checkIpBatchStreamEvents ips fails) = ips.length ∧
    (checkIpBatchStreamEvents ips fails).getLast? =
      some (.done ips.length ips.length) := by
  refine ⟨?_, ?_, ?_, ?_⟩
  · simp only [exitsBatchStreamEvents, countResultEvents, List.countP_append]
    rw [← countResultEvents, countResultEvents_number]
    simp [List.length_map, countResultEvents, isResultEvent]
  · exact getLast?_append_singleton _ _
  · simp only [checkIpBatchStreamEvents, countResultEvents, countItemErrorEvents,
      List.countP_append]
    rw [← countResultEvents, ← countItemErrorEvents]
    have := checkIpLoop_count fails ips ips.length 0
    simp [countResultEvents, countItemErrorEvents, isResultEvent, isItemErrorEvent] at this ⊢
    omega
  · exact getLast?_append_singleton _ _

theorem lexCmpChars_self : ∀ l : List Char, lexCmpChars l l = 0 := by
  intro l
  induction l with
  | nil => rfl
  | cons c rest ih => simp [lexCmpChars, Nat.lt_irrefl, ih]

theorem exitCompare_self (a : ExitItem) : exitCompare a a = 0 := by
  simp [exitCompare, localeCmp, lexCmpChars_self]

theorem lexCmpChars_antisymm : ∀ as bs : List Char, lexCmpChars bs as = -lexCmpChars as bs := by
  intro as
  induction as with
  | nil => intro bs; cases bs <;> rfl
  | cons a as ih =>
    intro bs
    cases bs with
    | nil => rfl
    | cons b bs =>
      simp only [lexCmpChars]
      by_cases h1 : a.toNat < b.toNat
      · rw [if_neg (Nat.lt_asymm h1), if_pos h1, if_pos h1]
        rfl
      · by_cases h2 : b.toNat < a.toNat
        · rw [if_pos h2, if_neg h1, if_pos h2]
        · rw [if_neg h2, if_neg h1, if_neg h1, if_neg h2]
          exact ih bs

theorem exitCompare_antisymm (a b : ExitItem) : exitCompare b a = -exitCompare a b := by
  simp only [exitCompare, localeCmp]
  by_cases h : exitOrderOf a.exitType = exitOrderOf b.exitType
  · rw [h]
    rw [if_neg (fun hh => hh rfl), if_neg (fun hh => hh rfl)]
    exact lexCmpChars_antisymm _ _
  · have h' : exitOrderOf b.exitType ≠ exitOrderOf a.exitType := fun hh => h hh.symm
    rw [if_pos h', if_pos h]
    omega

theorem prepareExits_ipList (exits : List ExitItem) :
    (prepareExits exits).ipList = buildIpList [] (sortExits exits) := rfl

/-- C9: `prepareExits` deduplication is stable —
`prepareExits([a,b,a]).ipList = prepareExits([a,b]).ipList` under the
exit-type ordering with lexicographic tiebreak and first-occurrence dedup
after the stable sort. -/
theorem claim_C9_dedup_stable (a b : ExitItem) :
    (prepareExits [a, b, a]).ipList = (prepareExits [a, b]).ipList := by
  have hself : exitCompare a a ≤ 0 := by rw [exitCompare_self]
  by_cases c1 : exitCompare a b ≤ 0 <;> by_cases c2 : exitCompare b a ≤ 0
  · have hs3 : sortExits [a, b, a] = [a, b, a] := by
      simp only [sortExits, insertSorted]
      rw [if_pos c2]
      simp only [insertSorted]
      rw [if_pos c1]
    have hs2 : sortExits [a, b] = [a, b] := by
      simp only [sortExits, insertSorted]
      rw [if_pos c1]
    rw [prepareExits_ipList, prepareExits_ipList, hs3, hs2]
    by_cases hip : b.cfData.ip = a.cfData.ip
    · simp [buildIpList, hip]
    · have hip2 : ¬(a.cfData.ip = b.cfData.ip) := fun h => hip h.symm
      simp [buildIpList, hip, hip2]
  · have hs3 : sortExits [a, b, a] = [a, a, b] := by
      simp only [sortExits, insertSorted]
      rw [if_neg c2]
      simp only [insertSorted]
      rw [if_pos hself]
    have hs2 : sortExits [a, b] = [a, b] := by
      simp only [sortExits, insertSorted]
      rw [if_pos c1]
    rw [prepareExits_ipList, prepareExits_ipList, hs3, hs2]
    by_cases hip : b.cfData.ip = a.cfData.ip
    · simp [buildIpList, hip]
    · have hip2 : ¬(a.cfData.ip = b.cfData.ip) := fun h => hip h.symm
      simp [buildIpList, hip, hip2]
  · have hs3 : sortExits [a, b, a] = [b, a, a] := by
      simp only [sortExits, insertSorted]
      rw [if_pos c2]
      simp only [insertSorted]
      rw [if_neg c1]
      rw [if_pos hself]
    have hs2 : sortExits [a, b] = [b, a] := by
      simp only [sortExits, insertSorted]
      rw [if_neg c1]
    rw [prepareExits_ipList, prepareExits_ipList, hs3, hs2]
    by_cases hip : b.cfData.ip = a.cfData.ip
    · simp [buildIpList, hip]
    · have hip2 : ¬(a.cfData.ip = b.cfData.ip) := fun h => hip h.symm
      simp [buildIpList, hip, hip2]
  · exfalso
    have h1 : 0 < exitCompare a b := lt_of_not_le c1
    have h2 : exitCompare b a = -exitCompare a b := exitCompare_antisymm a b
    have h3 : 0 < exitCompare b a := lt_of_not_le c2
    omega

theorem lookupState_mapSnd (f : KeyState → KeyState) (sts : List (String × KeyState))
    (k : String) :
    lookupState (sts.map (fun kv => (kv.1, f kv.2))) k = (lookupState sts k).map f := by
  induction sts with
  | nil => rfl
  | cons kv rest ih =>
    obtain ⟨k0, st⟩ := kv
    by_cases hk : k0 = k
    · subst hk
      unfold lookupState
      rw [List.map_cons, List.find?_cons_of_pos, List.find?_cons_of_pos] <;> simp
    · unfold lookupState at ih ⊢
      rw [List.map_cons, List.find?_cons_of_neg, List.find?_cons_of_neg]
      · exact ih
      · simpa using hk
      · simpa using hk

theorem lookupState_cleanup (km : KeyManager) (now : Int) (k : String) :
    lookupState (cleanupExpiredCooldowns km now).keyStates k =
      (lookupState km.keyStates k).map (cleanupKeyState km.cooldownMs now) :=
  lookupState_mapSnd _ _ _

theorem lookupState_update_self (sts : List (String × KeyState)) (key : String)
    (f : KeyState → KeyState) :
    lookupState (updateState sts key f) key = (lookupState sts key).map f := by
  induction sts with
  | nil => rfl
  | cons kv rest ih =>
    obtain ⟨k0, st⟩ := kv
    by_cases hk : k0 = key
    · subst hk
      unfold updateState lookupState
      rw [List.map_cons, if_pos rfl, List.find?_cons_of_pos, List.find?_cons_of_pos] <;> simp
    · unfold updateState lookupState at ih ⊢
      rw [List.map_cons, if_neg hk, List.find?_cons_of_neg, List.find?_cons_of_neg]
      · exact ih
      · simpa using hk
      · simpa using hk

theorem probeLoop_none_spec (now : Int) :
    ∀ (fuel : Nat) (km km2 : KeyManager),
      0 < km.keys.length → km.currentIndex < km.keys.length →
      probeLoop km now fuel = (none, km2) →
      km2.keys = km.keys ∧ km2.keyStates = km.keyStates ∧ km2.cooldownMs = km.cooldownMs ∧
      km2.currentIndex = (km.currentIndex + fuel) % km.keys.length ∧
      ∀ j, j < fuel → ∀ st,
        lookupState km.keyStates
          (km.keys.getD ((km.currentIndex + j) % km.keys.length) "") = some st →
        availableAt km.cooldownMs now st = false := by
  intro fuel
  induction fuel with
  | zero =>
    intro km km2 hpos hidx h
    simp only [probeLoop] at h
    injection h with h1 h2
    subst h2
    refine ⟨rfl, rfl, rfl, ?_, ?_⟩
    · rw [Nat.add_zero, Nat.mod_eq_of_lt hidx]
    · intro j hj
      exact absurd hj (Nat.not_lt_zero j)
  | succ n ih =>
    intro km km2 hpos hidx h
    simp only [probeLoop] at h
    rcases hlk : lookupState km.keyStates (km.keys.getD km.currentIndex "") with _ | st
    · simp only [hlk] at h
      obtain ⟨hkeys, hsts, hcd, hcur, havail⟩ :=
        ih { km with currentIndex := (km.currentIndex + 1) % km.keys.length } km2
            hpos (Nat.mod_lt _ hpos) h
      refine ⟨hkeys, hsts, hcd, ?_, ?_⟩
      · rw [hcur]
        show ((km.currentIndex + 1) % km.keys.length + n) % km.keys.length =
          (km.currentIndex + (n + 1)) % km.keys.length
        rw [Nat.mod_add_mod]
        congr 1
        omega
      · intro j hj st hst
        cases j with
        | zero =>
          rw [Nat.add_zero, Nat.mod_eq_of_lt hidx, hlk] at hst
          cases hst
        | succ j' =>
          have hj' : j' < n := Nat.lt_of_succ_lt_succ hj
          apply havail j' hj' st
          show lookupState km.keyStates
            (km.keys.getD (((km.currentIndex + 1) % km.keys.length + j') % km.keys.length) "") =
            some st
          have hidx2 : ((km.currentIndex + 1) % km.keys.length + j') % km.keys.length =
              (km.currentIndex + (j' + 1)) % km.keys.length := by
            rw [Nat.mod_add_mod]
            congr 1
            omega
          rw [hidx2]
          exact hst
    · simp only [hlk] at h
      split_ifs at h with hh hr
      · exact absurd h (by simp)
      · exact absurd h (by simp)
      · obtain ⟨hkeys, hsts, hcd, hcur, havail⟩ :=
          ih { km with currentIndex := (km.currentIndex + 1) % km.keys.length } km2
            hpos (Nat.mod_lt _ hpos) h
        refine ⟨hkeys, hsts, hcd, ?_, ?_⟩
        · rw [hcur]
          show ((km.currentIndex + 1) % km.keys.length + n) % km.keys.length =
            (km.currentIndex + (n + 1)) % km.keys.length
          rw [Nat.mod_add_mod]
          congr 1
          omega
        · intro j hj st hst
          cases j with
          | zero =>
            rw [Nat.add_zero, Nat.mod_eq_of_lt hidx, hlk] at hst
            injection hst with hst
            subst hst
            have hh' : st.isHealthy = false := Bool.eq_false_iff.mpr hh
            unfold availableAt
            rw [hh']
            simpa using hr
          | succ j' =>
            have hj' : j' < n := Nat.lt_of_succ_lt_succ hj
            apply havail j' hj' st
            show lookupState km.keyStates
              (km.keys.getD (((km.currentIndex + 1) % km.keys.length + j') % km.keys.length) "") =
              some st
            have hidx2 : ((km.currentIndex + 1) % km.keys.length + j') % km.keys.length =
                (km.currentIndex + (j' + 1)) % km.keys.length := by
              rw [Nat.mod_add_mod]
              congr 1
              omega
            rw [hidx2]
            exact hst

theorem probeLoop_some_spec (now : Int) :
    ∀ (fuel : Nat) (km km2 : KeyManager) (k : String),
      0 < km.keys.length → km.currentIndex < km.keys.length →
      probeLoop km now fuel = (some k, km2) →
      ∃ j, j < fuel ∧
        k = km.keys.getD ((km.currentIndex + j) % km.keys.length) "" ∧
        km2.keys = km.keys ∧
        km2.currentIndex = (km.currentIndex + j + 1) % km.keys.length ∧
        (∃ st, lookupState km.keyStates k = some st ∧
          availableAt km.cooldownMs now st = true) ∧
        (∃ st2, lookupState km2.keyStates k = some st2 ∧ st2.isHealthy = true) := by
  intro fuel
  induction fuel with
  | zero =>
    intro km km2 k _ _ h
    simp only [probeLoop] at h
    cases h
  | succ n ih =>
    intro km km2 k hpos hidx h
    simp only [probeLoop] at h
    rcases hlk : lookupState km.keyStates (km.keys.getD km.currentIndex "") with _ | st
    · simp only [hlk] at h
      obtain ⟨j, hj, hk, hkeys, hcur, havail, hpost⟩ :=
        ih { km with currentIndex := (km.currentIndex + 1) % km.keys.length } km2 k
          hpos (Nat.mod_lt _ hpos) h
      have hidx2 : ∀ i : Nat, ((km.currentIndex + 1) % km.keys.length + i) % km.keys.length =
          (km.currentIndex + (i + 1)) % km.keys.length := by
        intro i
        rw [Nat.mod_add_mod]
        congr 1
        omega
      refine ⟨j + 1, Nat.succ_lt_succ hj, ?_, hkeys, ?_, havail, hpost⟩
      · rw [hk]
        congr 1
        exact hidx2 j
      · rw [hcur]
        show ((km.currentIndex + 1) % km.keys.length + j + 1) % km.keys.length =
          (km.currentIndex + (j + 1) + 1) % km.keys.length
        rw [Nat.add_assoc, Nat.mod_add_mod]
        congr 1
        omega
    · simp only [hlk] at h
      split_ifs at h with hh hr
      · injection h with h1 h2
        injection h1 with h1
        subst h1
        subst h2
        refine ⟨0, Nat.succ_pos n, ?_, rfl, ?_, ⟨st, hlk, ?_⟩, ⟨st, hlk, hh⟩⟩
        · rw [Nat.add_zero, Nat.mod_eq_of_lt hidx]
        · rfl
        · unfold availableAt
          rw [hh]
          rfl
      · injection h with h1 h2
        injection h1 with h1
        subst h1
        subst h2
        refine ⟨0, Nat.succ_pos n, ?_, rfl, ?_, ⟨st, hlk, ?_⟩, ?_⟩
        · rw [Nat.add_zero, Nat.mod_eq_of_lt hidx]
        · rfl
        · unfold availableAt
          rw [hr]
          simp
        · refine ⟨restoreKey st, ?_, rfl⟩
          show lookupState (updateState km.keyStates
            (km.keys.getD km.currentIndex "") restoreKey)
            (km.keys.getD km.currentIndex "") = some (restoreKey st)
          rw [lookupState_update_self, hlk]
          rfl
      · obtain ⟨j, hj, hk, hkeys, hcur, havail, hpost⟩ :=
          ih { km with currentIndex := (km.currentIndex + 1) % km.keys.length } km2 k
            hpos (Nat.mod_lt _ hpos) h
        have hidx2 : ∀ i : Nat, ((km.currentIndex + 1) % km.keys.length + i) % km.keys.length =
            (km.currentIndex + (i + 1)) % km.keys.length := by
          intro i
          rw [Nat.mod_add_mod]
          congr 1
          omega
        refine ⟨j + 1, Nat.succ_lt_succ hj, ?_, hkeys, ?_, havail, hpost⟩
        · rw [hk]
          congr 1
          exact hidx2 j
        · rw [hcur]
          show ((km.currentIndex + 1) % km.keys.length + j + 1) % km.keys.length =
            (km.currentIndex + (j + 1) + 1) % km.keys.length
          rw [Nat.add_assoc, Nat.mod_add_mod]
          congr 1
          omega

theorem getD_mem : ∀ (l : List String) (i : Nat), i < l.length → l.getD i "" ∈ l := by
  intro l
  induction l with
  | nil => intro i h; simp at h
  | cons x xs ih =>
    intro i h
    cases i with
    | zero => exact List.mem_cons_self _ _
    | succ i' => exact List.mem_cons_of_mem _ (ih i' (Nat.lt_of_succ_lt_succ h))

theorem mem_getD_of_mem (l : List String) (k : String) (hk : k ∈ l) :
    ∃ i, i < l.length ∧ l.getD i "" = k := by
  induction l with
  | nil => simp at hk
  | cons x xs ih =>
    rcases List.mem_cons.1 hk with hk | hk
    · exact ⟨0, Nat.succ_pos _, hk.symm⟩
    · obtain ⟨i, hi, hgi⟩ := ih hk
      exact ⟨i + 1, Nat.succ_lt_succ hi, hgi⟩

theorem cursor_mod_surj (N c i : Nat) (hN : 0 < N) (hc : c < N) (hi : i < N) :
    ∃ j, j < N ∧ (c + j) % N = i := by
  refine ⟨(i + N - c) % N, Nat.mod_lt _ hN, ?_⟩
  have h1 : (c + (i + N - c) % N) % N = (c + (i + N - c)) % N :=
    Nat.ModEq.add_left c (Nat.mod_modEq _ _)
  have h2 : c + (i + N - c) = i + N := by omega
  rw [h1, h2, Nat.add_mod_right]
  exact Nat.mod_eq_of_lt hi

theorem getNextKey_eq_probe (km : KeyManager) (now : Int) (h2 : 2 ≤ km.keys.length) :
    getNextKey km now =
      probeLoop (cleanupExpiredCooldowns km now) now km.keys.length := by
  rcases hkeys : km.keys with _ | ⟨k1, tl⟩
  · rw [hkeys] at h2; simp at h2
  · rcases tl with _ | ⟨k2, rest⟩
    · rw [hkeys] at h2; simp at h2
    · simp only [getNextKey, hkeys]
      rw [show (cleanupExpiredCooldowns km now).keys = km.keys from rfl, hkeys]

/-- C2 fails as stated for single-key pools: `getNextKey` short-circuits
`keys.length == 1` and returns the sole key without any health or cooldown
check. Here the key has just failed twice (unhealthy, cooldown not yet
expired), so the claim says `getNextKey` must return `null`, yet it returns
the key. -/
theorem claim_C2_counterexample :
    (getNextKey c2PoolFailed 3000).1 = some "K1" ∧
    lookupState c2PoolFailed.keyStates "K1" =
      some ⟨0, false, some 2000, 2, 0⟩ ∧
    availableAt c2PoolFailed.cooldownMs 3000 ⟨0, false, some 2000, 2, 0⟩ = false := by
  decide

/-- C2 (amended): for pools of at least two keys (and well-formed state, as
the constructor builds it), `getNextKey` sweeps expired cooldowns and then
probes round-robin from the cursor: a returned key is a member of the pool,
was healthy after the sweep or restorable by cooldown expiry, is healthy in
the post-state, and sits at cursor offset `j` with the cursor advanced to
`(cursor + j + 1) % N`; when no key is available after a full round the
result is `null`, the cursor is back at its starting value, and every key's
swept state is unavailable. (For a single-key pool the key is returned
unconditionally — see the counterexample — and an empty pool yields
`null`.) -/
theorem claim_C2_amended (km : KeyManager) (now : Int)
    (hwf : kmWF km = true) (h2 : 2 ≤ km.keys.length) :
    (∀ k, (getNextKey km now).1 = some k →
      k ∈ km.keys ∧
      (∃ st, lookupState km.keyStates k = some st ∧
        availableAt km.cooldownMs now (cleanupKeyState km.cooldownMs now st) = true) ∧
      (∃ st2, lookupState (getNextKey km now).2.keyStates k = some st2 ∧
        st2.isHealthy = true) ∧
      (∃ j, j < km.keys.length ∧
        k = km.keys.getD ((km.currentIndex + j) % km.keys.length) "" ∧
        (getNextKey km now).2.currentIndex =
          (km.currentIndex + j + 1) % km.keys.length)) ∧
    ((getNextKey km now).1 = none →
      (getNextKey km now).2.currentIndex = km.currentIndex ∧
      ∀ k ∈ km.keys, ∃ st, lookupState km.keyStates k = some st ∧
        availableAt km.cooldownMs now (cleanupKeyState km.cooldownMs now st) = false) := by
  have hwf' := hwf
  unfold kmWF at hwf'
  simp only [Bool.and_eq_true, decide_eq_true_eq, List.all_eq_true] at hwf'
  obtain ⟨hidx, hstates⟩ := hwf'
  have hpos : 0 < km.keys.length := by omega
  have hgp := getNextKey_eq_probe km now h2
  rcases hpl : probeLoop (cleanupExpiredCooldowns km now) now km.keys.length with ⟨res, km2⟩
  rw [hgp, hpl]
  constructor
  · intro k hk
    have hk' : res = some k := hk
    rw [hk'] at hpl
    obtain ⟨j, hj, hkd, hkeys2, hcur2, ⟨st1, hst1, hav1⟩, hpost⟩ :=
      probeLoop_some_spec now km.keys.length (cleanupExpiredCooldowns km now) km2 k
        hpos hidx hpl
    have hst1' : (lookupState km.keyStates k).map (cleanupKeyState km.cooldownMs now) =
        some st1 := by
      rw [← lookupState_cleanup]
      exact hst1
    obtain ⟨st0, hst0, hcl0⟩ := Option.map_eq_some'.mp hst1'
    refine ⟨?_, ⟨st0, hst0, ?_⟩, hpost, ⟨j, hj, hkd, hcur2⟩⟩
    · rw [hkd]
      exact getD_mem km.keys _ (Nat.mod_lt _ hpos)
    · rw [hcl0]
      exact hav1
  · intro hres
    have hres' : res = none := hres
    rw [hres'] at hpl
    obtain ⟨hkeys2, hsts2, hcd2, hcur2, hunav⟩ :=
      probeLoop_none_spec now km.keys.length (cleanupExpiredCooldowns km now) km2
        hpos hidx hpl
    constructor
    · rw [hcur2]
      show (km.currentIndex + km.keys.length) % km.keys.length = km.currentIndex
      rw [Nat.add_mod_right]
      exact Nat.mod_eq_of_lt hidx
    · intro k hk
      obtain ⟨i, hi, hgi⟩ := mem_getD_of_mem km.keys k hk
      obtain ⟨j, hj, hcj⟩ := cursor_mod_surj km.keys.length km.currentIndex i hpos hidx hi
      have hsome := hstates k hk
      rcases hlk0 : lookupState km.keyStates k with _ | st0
      · rw [hlk0] at hsome; simp at hsome
      · refine ⟨st0, rfl, ?_⟩
        apply hunav j hj (cleanupKeyState km.cooldownMs now st0)
        show lookupState (cleanupExpiredCooldowns km now).keyStates
          (km.keys.getD ((km.currentIndex + j) % km.keys.length) "") =
          some (cleanupKeyState km.cooldownMs now st0)
        rw [hcj, hgi, lookupState_cleanup, hlk0]
        rfl

theorem claim_C2_witness :
    "B" ∈ c2Pool3.keys ∧
    (∃ st, lookupState c2Pool3.keyStates "B" = some st ∧
      availableAt c2Pool3.cooldownMs 1000
        (cleanupKeyState c2Pool3.cooldownMs 1000 st) = true) ∧
    (∃ st2, lookupState (getNextKey c2Pool3 1000).2.keyStates "B" = some st2 ∧
      st2.isHealthy = true) ∧
    (∃ j, j < c2Pool3.keys.length ∧
      "B" = c2Pool3.keys.getD ((c2Pool3.currentIndex + j) % c2Pool3.keys.length) "" ∧
      (getNextKey c2Pool3 1000).2.currentIndex =
        (c2Pool3.currentIndex + j + 1) % c2Pool3.keys.length) :=
  (claim_C2_amended c2Pool3 1000 (by decide) (by decide)).1 "B" (by decide)

theorem fetchLoop_all_retry (oracle : Nat → AttemptOutcome) (times : Nat → Int)
    (hfail : ∀ i, retryableOutcome (oracle i) = true) :
    ∀ (fuel : Nat) (km : KeyManager) (lastError : Option String) (attempt : Nat),
      (fuel ≠ 0 ∨ ∃ i, lastError = some (attemptErrMsg (oracle i))) →
      ∃ msg km2,
        fetchLoop oracle times km lastError attempt fuel = (.errorRes msg, km2) ∧
        (msg = "No available API key" ∨ ∃ i, msg = attemptErrMsg (oracle i)) := by
  intro fuel
  induction fuel with
  | zero =>
    intro km lastError attempt hcond
    rcases hcond with h0 | ⟨i, hi⟩
    · exact absurd rfl h0
    · subst hi
      exact ⟨attemptErrMsg (oracle i), km, rfl, Or.inr ⟨i, rfl⟩⟩
  | succ n ih =>
    intro km lastError attempt hcond
    rcases hgn : getNextKey km (times attempt) with ⟨ores, km1⟩
    rcases ores with _ | key
    · refine ⟨"No available API key", km1, ?_, Or.inl rfl⟩
      simp only [fetchLoop, hgn]
    · have hr := hfail attempt
      rcases horacle : oracle attempt with ⟨status, text⟩ | ⟨msg, body⟩ | _
      · rw [horacle] at hr
        simp only [retryableOutcome] at hr
        simp only [fetchLoop, hgn, horacle]
        by_cases hc1 : (isKeyRelatedError status "{}" || decide (status ≥ 500)) = true
        · rw [if_pos hc1]
          exact ih _ _ _ (Or.inr ⟨attempt, by rw [horacle]; rfl⟩)
        · rw [if_neg hc1]
          by_cases hc2 :
              isKeyRelatedError status ("HTTP " ++ toString status ++ ": " ++ text) = true
          · rw [if_pos hc2]
            exact ih _ _ _ (Or.inr ⟨attempt, by rw [horacle]; rfl⟩)
          · exfalso
            simp only [Bool.or_eq_true] at hr hc1
            rcases hr with hr | hr
            · exact hc1 hr
            · exact hc2 hr
      · rw [horacle] at hr
        simp only [retryableOutcome] at hr
        simp only [fetchLoop, hgn, horacle]
        by_cases hc1 : isKeyRelatedError 0 body = true
        · rw [if_pos hc1]
          exact ih _ _ _ (Or.inr ⟨attempt, by rw [horacle]; rfl⟩)
        · rw [if_neg hc1]
          by_cases hc2 : isKeyRelatedError 0 msg = true
          · rw [if_pos hc2]
            exact ih _ _ _ (Or.inr ⟨attempt, by rw [horacle]; rfl⟩)
          · exfalso
            simp only [Bool.or_eq_true] at hr
            rcases hr with hr | hr
            · exact hc1 hr
            · exact hc2 hr
      · rw [horacle] at hr
        simp [retryableOutcome] at hr

/-- C4 fails as stated: when every attempt fails with a key-related error,
the returned provider-level error carries the LAST failure message alone
(here `HTTP 429: Too Many Requests`), not `"All API keys exhausted"` plus
that message — the literal `All API keys exhausted` appears nowhere in the
returned message. -/
theorem claim_C4_counterexample :
    (fetchApiDataWithKeyManager c4Pool c4Oracle c4Times).1 =
      FetchResult.errorRes "HTTP 429: Too Many Requests" ∧
    strIncludes "HTTP 429: Too Many Requests" "All API keys exhausted" = false := by
  decide

/-- C4 (amended): when every attempt's outcome is classified retryable
(key-related or 5xx), the fetch returns — never throws — a single
provider-level `status:'error'` result whose message is the failure message
of one of the attempts (the last one tried), or `"No available API key"`
when the pool ran dry; the fallback literal `"All API keys exhausted"` is
used only when no attempt was ever made. -/
theorem claim_C4_amended (km : KeyManager) (oracle : Nat → AttemptOutcome)
    (times : Nat → Int) (hne : km.keys.length ≠ 0)
    (hfail : ∀ i, retryableOutcome (oracle i) = true) :
    ∃ msg, (fetchApiDataWithKeyManager km oracle times).1 = .errorRes msg ∧
      (msg = "No available API key" ∨ ∃ i, msg = attemptErrMsg (oracle i)) := by
  unfold fetchApiDataWithKeyManager
  rw [if_neg hne]
  have hfuel : min km.keys.length 3 ≠ 0 := by omega
  obtain ⟨msg, km2, heq, hd⟩ :=
    fetchLoop_all_retry oracle times hfail (min km.keys.length 3) km none 0 (Or.inl hfuel)
  exact ⟨msg, by rw [heq], hd⟩

theorem claim_C4_witness :
    ∃ msg, (fetchApiDataWithKeyManager c4Pool c4Oracle c4Times).1 = .errorRes msg ∧
      (msg = "No available API key" ∨ ∃ i, msg = attemptErrMsg (c4Oracle i)) :=
  claim_C4_amended c4Pool c4Oracle c4Times (by decide) (fun _ => rfl)
